import Mathlib

/-!
Shallow embedding of `src/xenbus/xenbus_xs.c` (mini-os xenbus client).

Bytes are `Nat` (a C `char` value), byte strings are `List Nat`, and C strings
are nul-terminated byte runs.  Pointers to watch structures are modelled as
`Nat` identities.  The shared mutable state (`xs_state`, the watch registry and
the pending watch-event queue) is an explicit `XsState` record; blocking
primitives are modelled by oracles (the outcome of each `xb_write`, the
allocation results) and by a `blocked` result when `read_reply` would wait
forever.  The `len` field of a successfully received message always equals the
payload length, because `xb_read` blocks until exactly `len` bytes arrive, so
stored messages carry the payload list and its length is the `len` field.
-/

namespace Xenbus

/-- errno values used by the source (mini-os uses the Linux numbering). -/
def ENOENT : Int := 2

def EIO : Int := 5

def EAGAIN : Int := 11

def ENOMEM : Int := 12

def EACCES : Int := 13

def EBUSY : Int := 16

def EEXIST : Int := 17

def EISDIR : Int := 21

def EINVAL : Int := 22

def ENOSPC : Int := 28

def EROFS : Int := 30

def ERANGE : Int := 34

def ENOSYS : Int := 38

def ENOTEMPTY : Int := 39

def EISCONN : Int := 106

/-- Modelled from the spec: the wire message-type enum (`xsd_sockmsg_type` of
the protocol header, which is not under `src/`): a numeric enum covering
directory, read, watch, unwatch, transaction-start, transaction-end, write,
mkdir, rm, watch-event, the error sentinel and debug. -/
def XS_DEBUG : Nat := 0

def XS_DIRECTORY : Nat := 1

def XS_READ : Nat := 2

def XS_WATCH : Nat := 4

def XS_UNWATCH : Nat := 5

def XS_TRANSACTION_START : Nat := 6

def XS_TRANSACTION_END : Nat := 7

def XS_WRITE : Nat := 11

def XS_MKDIR : Nat := 12

def XS_RM : Nat := 13

def XS_WATCH_EVENT : Nat := 15

def XS_ERROR : Nat := 16

/-- Modelled from the spec: watch-event payload indices — index 0 is the
changed path, index 1 the token (`XS_WATCH_PATH` / `XS_WATCH_TOKEN` of the
protocol header, not under `src/`). -/
def XS_WATCH_PATH : Nat := 0

def XS_WATCH_TOKEN : Nat := 1

/-- The bytes of a Lean string (ASCII code points), without a terminating nul. -/
def bytesOfString (s : String) : List Nat := s.data.map Char.toNat

/-- `strlen` on a byte list: length of the run up to the first nul byte.
In the source every buffer scanned this way has a nul terminator at index
`len`, so scanning only the payload bytes is exact. -/
def strlenB (s : List Nat) : Nat := (s.takeWhile (fun c => c ≠ 0)).length

/-- `count_strings` (xenbus_xs.c:263-272): count the nul-terminated runs
covering `len` bytes, advancing by `strlen(p) + 1` each step. -/
def count_strings (s : List Nat) : Nat :=
  if s = [] then 0 else 1 + count_strings (s.drop (strlenB s + 1))
termination_by s.length
decreasing_by
  simp only [List.length_drop]
  have : 0 < s.length := List.length_pos.mpr (by assumption)
  omega

/-- The string-collecting loop of `split` (xenbus_xs.c:292-313): the ordered
sequence of nul-terminated runs covering the payload. -/
def split (s : List Nat) : List (List Nat) :=
  if s = [] then []
  else s.takeWhile (fun c => c ≠ 0) :: split (s.drop (strlenB s + 1))
termination_by s.length
decreasing_by
  simp only [List.length_drop]
  have : 0 < s.length := List.length_pos.mpr (by assumption)
  omega

/-- Value of a byte as a digit, rejected when it is not below `base`. -/
def digitVal (base : Nat) (c : Nat) : Option Nat :=
  let v : Option Nat :=
    if 48 ≤ c ∧ c ≤ 57 then some (c - 48)
    else if 65 ≤ c ∧ c ≤ 70 then some (c - 55)
    else if 97 ≤ c ∧ c ≤ 102 then some (c - 87)
    else none
  match v with
  | some v => if v < base then some v else none
  | none => none

/-- Digit-accumulation loop of `simple_strtoul`: consume leading digits valid
for `base`, stop at the first non-digit. -/
def strtoulLoop (base : Nat) : List Nat → Nat → Nat
  | [], acc => acc
  | c :: cs, acc =>
    match digitVal base c with
    | some v => strtoulLoop base cs (acc * base + v)
    | none => acc

/-- Modelled from the spec: `simple_strtoul` (a C library routine not under
`src/`) — parse an unsigned number from the start of a byte string; base 0
selects hexadecimal after a `0x` prefix, octal after a leading `0`, decimal
otherwise; base 16 accepts an optional `0x` prefix.  The source parses the
transaction id this way (base 0) and the watch token (base 16). -/
def simple_strtoul (s : List Nat) (base : Nat) : Nat :=
  if base = 16 ∨ base = 0 then
    match s with
    | 48 :: x :: rest =>
      if (x = 120 ∨ x = 88) ∧ (digitVal 16 (rest.getD 0 0)).isSome then
        strtoulLoop 16 rest 0
      else if base = 0 then strtoulLoop 8 (48 :: x :: rest) 0
      else strtoulLoop 16 s 0
    | [48] => 0
    | _ => strtoulLoop (if base = 0 then 10 else 16) s 0
  else strtoulLoop base s 0

/-- `sprintf("%lX", w)`: the uppercase-hexadecimal ASCII form of a watch
pointer, used as its token. -/
def hexStr (n : Nat) : String :=
  String.mk ((Nat.toDigits 16 n).map Char.toUpper)

/-- Modelled from the spec: the fixed error name→code table (`xsd_errors` of
the protocol header, not under `src/`), mapping each error-name string the
store service may return to its numeric code. -/
def xsd_errors : List (String × Int) :=
  [("EINVAL", EINVAL), ("EACCES", EACCES), ("EEXIST", EEXIST),
   ("EISDIR", EISDIR), ("ENOENT", ENOENT), ("ENOMEM", ENOMEM),
   ("ENOSPC", ENOSPC), ("EIO", EIO), ("ENOTEMPTY", ENOTEMPTY),
   ("ENOSYS", ENOSYS), ("EROFS", EROFS), ("EBUSY", EBUSY),
   ("EAGAIN", EAGAIN), ("EISCONN", EISCONN)]

/-- The lookup loop of `get_error` (xenbus_xs.c:100-112): scan the table in
order; when the last entry has been tried without a match, log one line and
return the generic `EINVAL`.  The second component records whether the log
line was emitted. -/
def get_error_aux (name : List Nat) : List (String × Int) → Int × Bool
  | [] => (EINVAL, true)
  | [e] => if name = bytesOfString e.1 then (e.2, false) else (EINVAL, true)
  | e :: e2 :: rest =>
    if name = bytesOfString e.1 then (e.2, false)
    else get_error_aux name (e2 :: rest)

/-- `get_error` (xenbus_xs.c:100-112) applied to a reply body: the error name
is the nul-terminated run at the start of the body (`strcmp` semantics). -/
def get_error (body : List Nat) : Int × Bool :=
  get_error_aux (body.takeWhile (fun c => c ≠ 0)) xsd_errors

/-- The fields of `struct xsd_sockmsg` other than `len` (which, for a received
message, equals the payload length carried alongside). -/
structure SockHdr where
  ty : Nat
  req_id : Nat
  tx_id : Nat
deriving DecidableEq

/-- A stored reply (`xs_stored_msg` with the `reply` arm): header plus body. -/
structure StoredReply where
  hdr : SockHdr
  body : List Nat
deriving DecidableEq

/-- A queued watch event (`xs_stored_msg` with the `watch` arm): the matched
watch handle and the split payload vector (`vec_size` is `vec.length`). -/
structure WatchMsg where
  handle : Nat
  vec : List (List Nat)
deriving DecidableEq

/-- The shared mutable state: `xs_state` (reply list, request mutex, suspend
rw-semaphore), the watch registry `watches`, the pending queue `watch_events`,
plus observation counters — `mutexHeld` is the net hold depth of the request
mutex, `suspendReaders` the net read-hold count of the suspend semaphore,
`logLines` counts `printk` calls, `replyWakes` and `watcherWakes` count
`wake_up` calls on the two wait queues. -/
structure XsState where
  replyList : List StoredReply
  watchEvents : List WatchMsg
  watches : List Nat
  mutexHeld : Nat
  suspendReaders : Int
  logLines : Nat
  replyWakes : Nat
  watcherWakes : Nat
deriving DecidableEq

/-- `read_reply` (xenbus_xs.c:114-142): pop the head of the reply list;
`none` when the list is empty and the caller would block forever. -/
def read_reply (s : XsState) : Option (StoredReply × XsState) :=
  match s.replyList with
  | [] => none
  | m :: rest => some (m, { s with replyList := rest })

/-- Outcome of `xs_talkv`: blocked forever in `read_reply`, an `ERR_PTR`
failure, or the reply body. -/
inductive TalkResult where
  | blocked
  | err (e : Int)
  | ok (body : List Nat)
deriving DecidableEq

/-- First failure among the first `n` oracle entries of a list (entries past
its end meaning success). -/
def firstSomeUpTo : Nat → List (Option Int) → Option Int
  | 0, _ => none
  | _ + 1, [] => none
  | n + 1, o :: rest =>
    match o with
    | some e => some e
    | none => firstSomeUpTo n rest

/-- Outcome of the sequence of `xb_write` calls for the `n` payload parts:
entry `i + 1` of the write oracle is the result of writing part `i` (entry 0
being the header write), and the first failure stops the sequence. -/
def firstPartErr (werr : List (Option Int)) (n : Nat) : Option Int :=
  firstSomeUpTo n (werr.drop 1)

/-- `xs_talkv` (xenbus_xs.c:190-239).  `werr` is the write oracle: entry 0 the
outcome of the header `xb_write`, entry `i+1` the outcome of writing payload
part `i` (`none` = success).  Takes the request mutex; on any write failure
releases it and fails with that code; otherwise consumes the head of the
reply list, releases the mutex, and either maps an `XS_ERROR` reply through
`get_error` (freeing the body) or returns the body. -/
def xs_talkv (werr : List (Option Int)) (s : XsState) (tx : Nat) (ty : Nat)
    (iov : List (List Nat)) : TalkResult × XsState :=
  let s0 := { s with mutexHeld := s.mutexHeld + 1 }
  match werr.getD 0 none with
  | some e => (.err e, { s0 with mutexHeld := s0.mutexHeld - 1 })
  | none =>
    match firstPartErr werr iov.length with
    | some e => (.err e, { s0 with mutexHeld := s0.mutexHeld - 1 })
    | none =>
      match read_reply s0 with
      | none => (.blocked, s0)
      | some (m, s1) =>
        let s2 := { s1 with mutexHeld := s1.mutexHeld - 1 }
        if m.hdr.ty = XS_ERROR then
          let ec := get_error m.body
          (.err (-ec.1),
           { s2 with logLines := s2.logLines + (if ec.2 then 1 else 0) })
        else
          (.ok m.body, s2)

/-- `xs_single` (xenbus_xs.c:242-252): one iovec holding the nul-terminated
string. -/
def xs_single (werr : List (Option Int)) (s : XsState) (tx : Nat) (ty : Nat)
    (str : String) : TalkResult × XsState :=
  xs_talkv werr s tx ty [bytesOfString str ++ [0]]

/-- `xs_error` (xenbus_xs.c:255-261): `none` when the talk blocked (never
returns), otherwise the error code, `0` for an acknowledged reply (whose body
is freed). -/
def xs_error : TalkResult → Option Int
  | .blocked => none
  | .err e => some e
  | .ok _ => some 0

/-- `join` (xenbus_xs.c:275-290): `ERR_PTR(-ENOMEM)` when the buffer
allocation fails (oracle `allocOk`), otherwise `dir` when `name` is empty and
`dir ++ "/" ++ name` otherwise. -/
def join (allocOk : Bool) (dir name : String) : Except Int String :=
  if ¬allocOk then .error (-ENOMEM)
  else if name = "" then .ok dir
  else .ok (dir ++ "/" ++ name)

/-- Outcome of `xenbus_directory`. -/
inductive DirResult where
  | blocked
  | err (e : Int)
  | ok (entries : List (List Nat))
deriving DecidableEq

/-- `xenbus_directory` (xenbus_xs.c:315-331): join the path (alloc oracle
`allocJoin`), issue an `XS_DIRECTORY` talk, and split the reply into the list
of child names (`allocSplit` is the oracle for `split`'s allocation, which
fails with `-ENOMEM`). -/
def xenbus_directory (allocJoin allocSplit : Bool) (werr : List (Option Int))
    (s : XsState) (tx : Nat) (dir node : String) : DirResult × XsState :=
  match join allocJoin dir node with
  | .error e => (.err e, s)
  | .ok path =>
    match xs_single werr s tx XS_DIRECTORY path with
    | (.blocked, s1) => (.blocked, s1)
    | (.err e, s1) => (.err e, s1)
    | (.ok body, s1) =>
      if allocSplit then (.ok (split body), s1) else (.err (-ENOMEM), s1)

/-- `xenbus_exists` (xenbus_xs.c:334-345): `some 0` when the directory call
returned an error, `some 1` when it succeeded; `none` when it blocked and the
call never returns. -/
def xenbus_exists (allocJoin allocSplit : Bool) (werr : List (Option Int))
    (s : XsState) (tx : Nat) (dir node : String) : Option Nat × XsState :=
  match xenbus_directory allocJoin allocSplit werr s tx dir node with
  | (.blocked, s1) => (none, s1)
  | (.err _, s1) => (some 0, s1)
  | (.ok d, s1) => (some 1, s1)

/-- `xenbus_read` (xenbus_xs.c:351-364): join the path and issue an `XS_READ`
talk, propagating a join failure. -/
def xenbus_read (allocJoin : Bool) (werr : List (Option Int)) (s : XsState)
    (tx : Nat) (dir node : String) : TalkResult × XsState :=
  match join allocJoin dir node with
  | .error e => (.err e, s)
  | .ok path => xs_single werr s tx XS_READ path

/-- Outcome of `xenbus_transaction_start`: the parsed transaction handle on
success. -/
inductive TxStartResult where
  | blocked
  | err (e : Int)
  | ok (id : Nat)
deriving DecidableEq

/-- `xenbus_transaction_start` (xenbus_xs.c:424-441): take the suspend lock in
read mode, issue the start call; on failure release the read lock before
propagating; on success parse the returned id (`simple_strtoul` base 0). -/
def xenbus_transaction_start (werr : List (Option Int)) (s : XsState) :
    TxStartResult × XsState :=
  let s0 := { s with suspendReaders := s.suspendReaders + 1 }
  match xs_single werr s0 0 XS_TRANSACTION_START "" with
  | (.blocked, s1) => (.blocked, s1)
  | (.err e, s1) => (.err e, { s1 with suspendReaders := s1.suspendReaders - 1 })
  | (.ok body, s1) => (.ok (simple_strtoul body 0), s1)

/-- `xenbus_transaction_end` (xenbus_xs.c:446-461): issue the end call with
"F"/"T" for abort/commit, then release the suspend read lock regardless of
the call's outcome.  `none` when the talk blocked (the call never returns,
still holding the read lock). -/
def xenbus_transaction_end (werr : List (Option Int)) (s : XsState) (tx : Nat)
    (abort : Bool) : Option Int × XsState :=
  let abortstr := if abort then "F" else "T"
  match xs_single werr s tx XS_TRANSACTION_END abortstr with
  | (.blocked, s1) => (none, s1)
  | (r, s1) =>
    (xs_error r, { s1 with suspendReaders := s1.suspendReaders - 1 })

/-- One triple of the variadic `xenbus_gather` argument list: a key name and
an optional scan function (`none` models a `NULL` fmt, storing the raw body;
`some parse` models `sscanf` through the caller's format, `parse p = none`
when `sscanf` returns 0 and assigns nothing). -/
structure GatherItem where
  name : String
  fmt : Option (List Nat → Option Int)

/-- A caller-visible output slot written by `gather`: either the raw body
pointer or the scanned value. -/
inductive Slot where
  | rawV (bytes : List Nat)
  | scanV (v : Int)
deriving DecidableEq

/-- Outcome of `xenbus_gather`. -/
inductive GatherRet where
  | blocked
  | ret (e : Int)
deriving DecidableEq

/-- `xenbus_gather` (xenbus_xs.c:511-537): walk the triples in order while
`ret == 0`; read each key under `dir`; on a read failure stop with its code;
with a fmt, `sscanf` — a scan returning 0 stops with `-EINVAL` and assigns
nothing; without a fmt store the raw body.  The returned list has one entry
per triple: `some v` when that output slot was written by this call, `none`
when it was never written.  Each triple carries its own allocation and write
oracles `(allocJoin, werr)`. -/
def xenbus_gather (s : XsState) (tx : Nat) (dir : String) :
    List (GatherItem × Bool × List (Option Int)) →
    GatherRet × XsState × List (Option Slot)
  | [] => (.ret 0, s, [])
  | (it, aj, werr) :: rest =>
    match xenbus_read aj werr s tx dir it.name with
    | (.blocked, s1) => (.blocked, s1, none :: rest.map (fun _ => none))
    | (.err e, s1) => (.ret e, s1, none :: rest.map (fun _ => none))
    | (.ok p, s1) =>
      match it.fmt with
      | some parse =>
        match parse p with
        | none => (.ret (-EINVAL), s1, none :: rest.map (fun _ => none))
        | some v =>
          let r := xenbus_gather s1 tx dir rest
          (r.1, r.2.1, some (.scanV v) :: r.2.2)
      | none =>
        let r := xenbus_gather s1 tx dir rest
        (r.1, r.2.1, some (.rawV p) :: r.2.2)

/-- `xs_watch` (xenbus_xs.c:539-550): an `XS_WATCH` talk carrying the
nul-terminated path and token, reduced through `xs_error`. -/
def xs_watch (werr : List (Option Int)) (s : XsState) (path token : String) :
    Option Int × XsState :=
  let r := xs_talkv werr s 0 XS_WATCH
    [bytesOfString path ++ [0], bytesOfString token ++ [0]]
  (xs_error r.1, r.2)

/-- `find_watch` (xenbus_xs.c:565-576): parse the token as a hexadecimal
pointer value and return the registry entry equal to it. -/
def find_watch (token : List Nat) (watches : List Nat) : Option Nat :=
  let cmp := simple_strtoul token 16
  watches.find? (fun w => w == cmp)

/-- `register_xenbus_watch` (xenbus_xs.c:579-606): the token is the pointer in
ascii; take the suspend lock in read mode, add the watch to the registry,
issue the subscribe call, and on any failure other than `-EEXIST` roll the
insertion back; release the suspend lock.  `none` when the subscribe talk
blocked (the call never returns). -/
def register_xenbus_watch (werr : List (Option Int)) (s : XsState) (w : Nat)
    (node : String) : Option Int × XsState :=
  let token := hexStr w
  let s0 := { s with suspendReaders := s.suspendReaders + 1 }
  let s1 := { s0 with watches := w :: s0.watches }
  match xs_watch werr s1 node token with
  | (none, s2) => (none, s2)
  | (some err, s2) =>
    let s3 :=
      if err ≠ 0 ∧ err ≠ -EEXIST then { s2 with watches := s2.watches.erase w }
      else s2
    (some err, { s3 with suspendReaders := s3.suspendReaders - 1 })

/-- The oracles consumed by one `process_msg` call: the two allocation
outcomes, the header read (its `len` being the length of the body the
subsequent `xb_read` fills), the body read, and `split`'s allocation. -/
structure PMOracle where
  allocMsg : Bool
  hdrRead : Except Int SockHdr
  allocBody : Bool
  bodyRead : Except Int (List Nat)
  allocSplit : Bool

/-- `vec[XS_WATCH_TOKEN]`: the token field of a split watch-event payload. -/
def watchToken (vec : List (List Nat)) : List Nat := vec.getD XS_WATCH_TOKEN []

/-- `process_msg` (xenbus_xs.c:695-755): read one framed message.  A watch
event is split; its token (`vec[XS_WATCH_TOKEN]`) is looked up under the
watches lock; a match is appended to the pending watch-event queue and the
Watcher is woken, a non-match is freed with no other effect.  Any other type
is appended to the reply list and the reply wait queue is woken. -/
def process_msg (o : PMOracle) (s : XsState) : Int × XsState :=
  if ¬o.allocMsg then (-ENOMEM, s) else
  match o.hdrRead with
  | .error e => (e, s)
  | .ok hdr =>
    if ¬o.allocBody then (-ENOMEM, s) else
    match o.bodyRead with
    | .error e => (e, s)
    | .ok body =>
      if hdr.ty = XS_WATCH_EVENT then
        if ¬o.allocSplit then (-ENOMEM, s) else
        let vec := split body
        match find_watch (watchToken vec) s.watches with
        | some w =>
          (0, { s with watchEvents := s.watchEvents ++ [⟨w, vec⟩],
                       watcherWakes := s.watcherWakes + 1 })
        | none => (0, s)
      else
        (0, { s with replyList := s.replyList ++ [⟨hdr, body⟩],
                     replyWakes := s.replyWakes + 1 })

/-!
Interleaving model of the Watcher task (`xenwatch_thread`, xenbus_xs.c:
664-693) against `unregister_xenbus_watch` (xenbus_xs.c:608-640) and the
Dispatcher's enqueue step.  The Watcher's iteration has two atomic points
separated by a lock release/acquire window: removing the head of the pending
queue under `watch_events_lock`, and invoking the callback (the unregister
path takes `watch_events_lock` but never `xenwatch_mutex`, so the callback
invocation can interleave with a complete unregister call).
-/

/-- The shared state visible to the watch-delivery interleavings: the registry,
the pending queue, the Watcher's local message between its dequeue and its
callback invocation, and the ordered log of watch handles whose callbacks have
been invoked. -/
structure ConcState where
  watches : List Nat
  watchEvents : List WatchMsg
  slot : Option WatchMsg
  cbLog : List Nat
deriving DecidableEq

/-- One atomic step of an interleaving:
`wDequeue`/`wCallback` are the two halves of a `xenwatch_thread` iteration;
`uRemove w` is unregister's registry removal under `watches_lock`;
`uPurge w` is unregister's purge of pending events under `watch_events_lock`
(after which unregister returns); `dEnqueue m` is the Dispatcher appending a
matched event (`process_msg` only enqueues when the handle is registered). -/
inductive Action where
  | wDequeue
  | wCallback
  | uRemove (w : Nat)
  | uPurge (w : Nat)
  | dEnqueue (m : WatchMsg)
deriving DecidableEq

/-- Small-step transition; a step whose guard fails leaves the state
unchanged. -/
def step (s : ConcState) : Action → ConcState
  | .wDequeue =>
    match s.slot, s.watchEvents with
    | none, m :: rest => { s with slot := some m, watchEvents := rest }
    | _, _ => s
  | .wCallback =>
    match s.slot with
    | some m => { s with slot := none, cbLog := s.cbLog ++ [m.handle] }
    | none => s
  | .uRemove w => { s with watches := s.watches.erase w }
  | .uPurge w =>
    { s with watchEvents := s.watchEvents.filter (fun m => m.handle ≠ w) }
  | .dEnqueue m =>
    if m.handle ∈ s.watches then
      { s with watchEvents := s.watchEvents ++ [m] }
    else s

/-- Run a sequence of interleaving steps. -/
def runSteps (s : ConcState) : List Action → ConcState
  | [] => s
  | a :: acts => runSteps (step s a) acts

/-- The two shared-state effects of one `unregister_xenbus_watch(w)` call, in
source order: registry removal, then the pending-queue purge; the call
returns immediately after the purge. -/
def unregSteps (s : ConcState) (w : Nat) : ConcState :=
  step (step s (.uRemove w)) (.uPurge w)

/-- The claim as stated: in every interleaving, once `unregister(w)` has
returned, no further callback invocation references `w` — the count of `w` in
the callback log never grows after the purge step, whatever steps follow. -/
def unreg_race_safe : Prop :=
  ∀ (s : ConcState) (w : Nat) (post : List Action),
    (runSteps (unregSteps s w) post).cbLog.count w = (unregSteps s w).cbLog.count w

/-- A base state with empty queues and no lock held, for concrete
instantiations. -/
def baseS : XsState :=
  { replyList := [], watchEvents := [], watches := [], mutexHeld := 0,
    suspendReaders := 0, logLines := 0, replyWakes := 0, watcherWakes := 0 }

/-- A state holding one pending transaction-start reply carrying id "3". -/
def txStartS : XsState :=
  { baseS with replyList := [⟨⟨XS_TRANSACTION_START, 0, 0⟩, bytesOfString "3" ++ [0]⟩] }

/-- A state with the suspend read lock held once and a pending ack reply. -/
def txEndS : XsState :=
  { baseS with suspendReaders := 1, replyList := [⟨⟨XS_TRANSACTION_END, 0, 0⟩, []⟩] }

/-- A state holding one pending subscribe acknowledgement. -/
def regS : XsState := { baseS with replyList := [⟨⟨XS_WATCH, 0, 0⟩, []⟩] }

/-- A state holding one pending empty directory listing. -/
def dirS : XsState := { baseS with replyList := [⟨⟨XS_DIRECTORY, 0, 0⟩, []⟩] }

/-- A state holding a read reply `"1"` for the first key and an `"ENOENT"`
error reply for the second. -/
def gatherS : XsState :=
  { baseS with replyList := [⟨⟨XS_READ, 0, 0⟩, [49]⟩,
                             ⟨⟨XS_ERROR, 0, 0⟩, bytesOfString "ENOENT" ++ [0]⟩] }

/-- The watcher mid-delivery: it has already dequeued the event for watch 5
but not yet invoked the callback. -/
def raceMid : ConcState :=
  { watches := [5], watchEvents := [], slot := some ⟨5, [[112], [66]]⟩,
    cbLog := [] }

/-- No trace of the watch-delivery system can deliver a callback for `w` from
a state where `w` is not registered, no pending event is for `w`, and the
Watcher's in-hand message is not for `w`. -/
def wSafe (w : Nat) (s : ConcState) : Prop :=
  (∀ m ∈ s.watchEvents, m.handle ≠ w) ∧ w ∉ s.watches ∧
    (∀ m, s.slot = some m → m.handle ≠ w)

/-- The race scenario before any Watcher step: one event for watch 5 queued,
nothing in the Watcher's hand. -/
def raceInit : ConcState :=
  { watches := [5], watchEvents := [⟨5, [[112], [66]]⟩], slot := none,
    cbLog := [] }

/-- When the name matches no table entry, the `get_error` scan falls off the
last entry, logging and returning the generic `EINVAL`. -/
theorem get_error_aux_unknown (name : List Nat) (l : List (String × Int))
    (h : ∀ p ∈ l, name ≠ bytesOfString p.1) :
    get_error_aux name l = (EINVAL, true) := by
  induction l with
  | nil => rfl
  | cons e rest ih =>
    cases rest with
    | nil =>
      simp only [get_error_aux]
      rw [if_neg (h e (by simp))]
    | cons e2 rest2 =>
      simp only [get_error_aux]
      rw [if_neg (h e (by simp))]
      exact ih (fun p hp => h p (by simp [hp]))

/-- C8: for every payload of nul-terminated strings, `split` returns the
ordered sequence of those strings — `"x\0y\0z\0"` of length 6 splits into
`["x","y","z"]`, the empty payload into the empty sequence, and in general
the number of strings returned equals `count_strings`, the number of
nul-terminated runs covering the payload. -/
theorem split_ordered_runs :
    split [120, 0, 121, 0, 122, 0] = [[120], [121], [122]] ∧
    split ([] : List Nat) = [] ∧
    ∀ s : List Nat, (split s).length = count_strings s := by
  refine ⟨by simp [split, strlenB], by simp [split], ?_⟩
  intro s
  induction s using split.induct with
  | case1 => simp [split, count_strings]
  | case2 x h ih =>
    rw [split, count_strings]
    simp only [if_neg h, List.length_cons]
    omega

/-- C9: `join dir name` yields `dir` unchanged when `name` is empty and
`dir ++ "/" ++ name` otherwise (on the successful-allocation path);
in particular `join "/a/b" "" = "/a/b"` and `join "/a/b" "c" = "/a/b/c"`. -/
theorem join_separator_spec :
    (∀ dir name : String, name ≠ "" → join true dir name = .ok (dir ++ "/" ++ name)) ∧
    (∀ dir : String, join true dir "" = .ok dir) ∧
    join true "/a/b" "" = .ok "/a/b" ∧
    join true "/a/b" "c" = .ok "/a/b/c" :=
  ⟨fun _ name h => by simp [join, h], fun dir => by simp [join],
   rfl, rfl⟩

/-- Witness for C9 at a concrete non-empty name. -/
theorem join_separator_spec_witness : join true "/x" "y" = .ok "/x/y" :=
  join_separator_spec.1 "/x" "y" (by decide)

/-- C3: when any `xb_write` of the header or of a payload part fails,
`xs_talkv` returns that transport error with the request mutex released and
the whole state — in particular the reply list — unchanged. -/
theorem xs_talkv_write_failure (werr : List (Option Int)) (s : XsState)
    (tx ty : Nat) (iov : List (List Nat)) (e : Int)
    (h : werr.getD 0 none = some e ∨
         (werr.getD 0 none = none ∧ firstPartErr werr iov.length = some e)) :
    xs_talkv werr s tx ty iov = (.err e, s) := by
  rcases h with h | ⟨h0, h1⟩
  · simp only [xs_talkv]
    rw [h]
    rfl
  · simp only [xs_talkv]
    rw [h0, h1]
    rfl

/-- Witness for C3: a failing header write and a failing second-part write,
each leaving a nonempty reply list untouched. -/
theorem xs_talkv_write_failure_witness :
    xs_talkv [some (-5)]
        { baseS with replyList := [⟨⟨XS_READ, 0, 0⟩, [49]⟩] } 0 XS_READ [[]] =
      (.err (-5), { baseS with replyList := [⟨⟨XS_READ, 0, 0⟩, [49]⟩] }) ∧
    xs_talkv [none, none, some (-5)]
        { baseS with replyList := [⟨⟨XS_READ, 0, 0⟩, [49]⟩] } 0 XS_WRITE
        [[47], [49]] =
      (.err (-5), { baseS with replyList := [⟨⟨XS_READ, 0, 0⟩, [49]⟩] }) :=
  ⟨xs_talkv_write_failure _ _ _ _ _ _ (Or.inl rfl),
   xs_talkv_write_failure _ _ _ _ _ _ (Or.inr ⟨rfl, by decide⟩)⟩

/-- C2: when every write succeeds and the pending reply has the `XS_ERROR`
type, `xs_talkv` fails with the negated code obtained by `get_error` from the
body's error name, consumes that reply (discarding the body), leaves the
request mutex released, and bumps the log exactly when the name is unknown;
every table entry maps to its own code without logging, and every name
outside the table maps to the generic `EINVAL` with a log line. -/
theorem xs_talkv_error_reply (werr : List (Option Int)) (s : XsState)
    (tx ty : Nat) (iov : List (List Nat)) (m : StoredReply)
    (rest : List StoredReply)
    (hw0 : werr.getD 0 none = none)
    (hw1 : firstPartErr werr iov.length = none)
    (hr : s.replyList = m :: rest)
    (he : m.hdr.ty = XS_ERROR) :
    xs_talkv werr s tx ty iov =
      (.err (-(get_error m.body).1),
       { s with replyList := rest,
                logLines := s.logLines +
                  (if (get_error m.body).2 then 1 else 0) }) ∧
    (∀ body : List Nat,
      (∀ p ∈ xsd_errors, body.takeWhile (fun c => c ≠ 0) ≠ bytesOfString p.1) →
      get_error body = (EINVAL, true)) ∧
    (∀ p ∈ xsd_errors, get_error (bytesOfString p.1 ++ [0]) = (p.2, false)) := by
  refine ⟨?_, fun body hb => get_error_aux_unknown _ _ hb, by decide⟩
  simp only [xs_talkv, read_reply]
  rw [hw0, hw1, hr]
  simp [he]

/-- Witness for C2: an `"ENOENT"` error reply fails with `-ENOENT` without
logging, and an unknown `"EWEIRD"` error reply fails with `-EINVAL` and emits
exactly one log line. -/
theorem xs_talkv_error_reply_witness :
    xs_talkv []
        { baseS with replyList := [⟨⟨XS_ERROR, 0, 0⟩, bytesOfString "ENOENT" ++ [0]⟩] }
        0 XS_READ [[47]] =
      (.err (-2), baseS) ∧
    xs_talkv []
        { baseS with replyList := [⟨⟨XS_ERROR, 0, 0⟩, bytesOfString "EWEIRD" ++ [0]⟩] }
        0 XS_READ [[47]] =
      (.err (-22), { baseS with logLines := 1 }) := by
  constructor
  · have h := xs_talkv_error_reply []
      { baseS with replyList := [⟨⟨XS_ERROR, 0, 0⟩, bytesOfString "ENOENT" ++ [0]⟩] }
      0 XS_READ [[47]] ⟨⟨XS_ERROR, 0, 0⟩, bytesOfString "ENOENT" ++ [0]⟩ []
      rfl (by decide) rfl rfl
    refine h.1.trans ?_
    decide
  · have h := xs_talkv_error_reply []
      { baseS with replyList := [⟨⟨XS_ERROR, 0, 0⟩, bytesOfString "EWEIRD" ++ [0]⟩] }
      0 XS_READ [[47]] ⟨⟨XS_ERROR, 0, 0⟩, bytesOfString "EWEIRD" ++ [0]⟩ []
      rfl (by decide) rfl rfl
    refine h.1.trans ?_
    decide

/-- `xs_talkv` only touches the reply list, the request mutex and the log:
the suspend read count, the watch registry and the pending event queue are
unchanged whatever the outcome. -/
theorem xs_talkv_frame (werr : List (Option Int)) (s : XsState) (tx ty : Nat)
    (iov : List (List Nat)) :
    (xs_talkv werr s tx ty iov).2.suspendReaders = s.suspendReaders ∧
    (xs_talkv werr s tx ty iov).2.watches = s.watches ∧
    (xs_talkv werr s tx ty iov).2.watchEvents = s.watchEvents := by
  refine ⟨?_, ?_, ?_⟩ <;>
  · simp only [xs_talkv, read_reply]
    cases hw : werr.getD 0 none with
    | some e => rfl
    | none =>
      cases hp : firstPartErr werr iov.length with
      | some e => rfl
      | none =>
        cases hr : s.replyList with
        | nil => rfl
        | cons m rest =>
          by_cases he : m.hdr.ty = XS_ERROR <;> simp [he]

/-- C4: transaction start and end keep the suspend read count balanced —
a failed start releases the read lock (count unchanged), a successful start
returns holding it (count up by one), and every returning end call releases
it regardless of the commit/abort outcome (count down by one). -/
theorem transaction_suspend_read_balance (werr werr2 : List (Option Int))
    (s s2 : XsState) (tx : Nat) (ab : Bool) :
    (∀ e s', xenbus_transaction_start werr s = (.err e, s') →
       s'.suspendReaders = s.suspendReaders) ∧
    (∀ id s', xenbus_transaction_start werr s = (.ok id, s') →
       s'.suspendReaders = s.suspendReaders + 1) ∧
    (∀ e s', xenbus_transaction_end werr2 s2 tx ab = (some e, s') →
       s'.suspendReaders = s2.suspendReaders - 1) := by
  refine ⟨?_, ?_, ?_⟩
  · intro e s' h
    simp only [xenbus_transaction_start, xs_single] at h
    split at h
    next heq => cases h
    next e' s1 heq =>
      have hf := (xs_talkv_frame werr
        { s with suspendReaders := s.suspendReaders + 1 } 0 XS_TRANSACTION_START
        [bytesOfString "" ++ [0]]).1
      rw [heq] at hf
      cases h
      simp at hf
      simp [hf]
    next id s1 heq => cases h
  · intro id s' h
    simp only [xenbus_transaction_start, xs_single] at h
    split at h
    next heq => cases h
    next e' s1 heq => cases h
    next id' s1 heq =>
      have hf := (xs_talkv_frame werr
        { s with suspendReaders := s.suspendReaders + 1 } 0 XS_TRANSACTION_START
        [bytesOfString "" ++ [0]]).1
      rw [heq] at hf
      cases h
      simp at hf
      simp [hf]
  · intro e s' h
    simp only [xenbus_transaction_end, xs_single] at h
    split at h
    next heq => cases h
    next r s1 hnb heq =>
      have hf := (xs_talkv_frame werr2 s2 tx XS_TRANSACTION_END
        [bytesOfString (if ab then "F" else "T") ++ [0]]).1
      rw [heq] at hf
      injection h with h1 h2
      subst h2
      simp only [Prod.snd] at hf
      simp [hf]

/-- Witness for C4: a failed start (write error) leaves the read count at 0, a
successful start leaves it at 1, and an end call from read count 1 returns it
to 0. -/
theorem transaction_suspend_read_balance_witness :
    (xenbus_transaction_start [some (-5)] baseS).2.suspendReaders =
      baseS.suspendReaders ∧
    (xenbus_transaction_start [] txStartS).2.suspendReaders =
      txStartS.suspendReaders + 1 ∧
    (xenbus_transaction_end [] txEndS 3 false).2.suspendReaders = 0 := by
  refine ⟨?_, ?_, ?_⟩
  · exact (transaction_suspend_read_balance [some (-5)] [] baseS baseS 0
      false).1 (-5) _ (by decide)
  · exact (transaction_suspend_read_balance [] [] txStartS baseS 0
      false).2.1 3 _ (by decide)
  · have h := (transaction_suspend_read_balance [] [] baseS txEndS 3
      false).2.2 0 (xenbus_transaction_end [] txEndS 3 false).2 (by decide)
    simpa [txEndS] using h

/-- C1: classification in `process_msg` is exhaustive and two-way on the
successful read path — a watch event whose token matches no registered watch
leaves the state unchanged (no queue entry, no wakeup); a watch event whose
token matches watch `w` appends the event to the pending queue and wakes the
Watcher; a message of any other type appends to the reply list and wakes the
blocked caller. -/
theorem process_msg_classification (o : PMOracle) (s : XsState)
    (hdr : SockHdr) (body : List Nat)
    (hm : o.allocMsg = true) (hh : o.hdrRead = .ok hdr)
    (hb : o.allocBody = true) (hbr : o.bodyRead = .ok body) :
    (hdr.ty = XS_WATCH_EVENT → o.allocSplit = true →
      (find_watch (watchToken (split body)) s.watches = none →
        process_msg o s = (0, s)) ∧
      (∀ w, find_watch (watchToken (split body)) s.watches = some w →
        process_msg o s =
          (0, { s with watchEvents := s.watchEvents ++ [⟨w, split body⟩],
                       watcherWakes := s.watcherWakes + 1 }))) ∧
    (hdr.ty ≠ XS_WATCH_EVENT →
      process_msg o s =
        (0, { s with replyList := s.replyList ++ [⟨hdr, body⟩],
                     replyWakes := s.replyWakes + 1 })) := by
  refine ⟨fun ht hs => ⟨fun hf => ?_, fun w hf => ?_⟩, fun ht => ?_⟩
  · simp [process_msg, hm, hh, hb, hbr, ht, hs, hf]
  · simp [process_msg, hm, hh, hb, hbr, ht, hs, hf]
  · simp [process_msg, hm, hh, hb, hbr, ht]

/-- Witness for C1: a matched watch event is queued and the Watcher woken; an
unmatched one (token `"C"`, watch 11 registered) leaves the state unchanged;
a read reply is queued on the reply list and the caller woken. -/
theorem process_msg_classification_witness :
    process_msg ⟨true, .ok ⟨XS_WATCH_EVENT, 0, 0⟩, true, .ok [112, 0, 66, 0], true⟩
        { baseS with watches := [11] } =
      (0, { baseS with
              watches := [11], watchEvents := [⟨11, [[112], [66]]⟩],
              watcherWakes := 1 }) ∧
    process_msg ⟨true, .ok ⟨XS_WATCH_EVENT, 0, 0⟩, true, .ok [112, 0, 67, 0], true⟩
        { baseS with watches := [11] } =
      (0, { baseS with watches := [11] }) ∧
    process_msg ⟨true, .ok ⟨XS_READ, 0, 0⟩, true, .ok [49], true⟩ baseS =
      (0, { baseS with
              replyList := [⟨⟨XS_READ, 0, 0⟩, [49]⟩], replyWakes := 1 }) := by
  refine ⟨?_, ?_, ?_⟩
  · have h := ((process_msg_classification
      ⟨true, .ok ⟨XS_WATCH_EVENT, 0, 0⟩, true, .ok [112, 0, 66, 0], true⟩
      { baseS with watches := [11] }
      ⟨XS_WATCH_EVENT, 0, 0⟩ [112, 0, 66, 0] rfl rfl rfl rfl).1 rfl rfl).2 11
      (by simp [split, strlenB]; decide)
    refine h.trans ?_
    simp [split, strlenB, baseS]
  · exact ((process_msg_classification
      ⟨true, .ok ⟨XS_WATCH_EVENT, 0, 0⟩, true, .ok [112, 0, 67, 0], true⟩
      { baseS with watches := [11] }
      ⟨XS_WATCH_EVENT, 0, 0⟩ [112, 0, 67, 0] rfl rfl rfl rfl).1 rfl rfl).1
      (by simp [split, strlenB]; decide)
  · have h := (process_msg_classification
      ⟨true, .ok ⟨XS_READ, 0, 0⟩, true, .ok [49], true⟩ baseS
      ⟨XS_READ, 0, 0⟩ [49] rfl rfl rfl rfl).2 (by decide)
    refine h.trans ?_
    simp [baseS]

/-- C6: registration inserts the watch, then subscribes; a subscribe failure
other than `-EEXIST` rolls the insertion back, so after such a failure the
watch is not in the registry, while after a success or an already-subscribed
(`-EEXIST`) outcome it is. -/
theorem register_watch_rollback (werr : List (Option Int)) (s : XsState)
    (w : Nat) (node : String) (err : Int) (s' : XsState)
    (hw : w ∉ s.watches)
    (h : register_xenbus_watch werr s w node = (some err, s')) :
    ((err ≠ 0 ∧ err ≠ -EEXIST) → w ∉ s'.watches) ∧
    ((err = 0 ∨ err = -EEXIST) → w ∈ s'.watches) := by
  simp only [register_xenbus_watch, xs_watch] at h
  generalize hR : xs_talkv werr
    { s with suspendReaders := s.suspendReaders + 1, watches := w :: s.watches }
    0 XS_WATCH [bytesOfString node ++ [0], bytesOfString (hexStr w) ++ [0]] = R at h
  have hfw := (xs_talkv_frame werr
    { s with suspendReaders := s.suspendReaders + 1, watches := w :: s.watches }
    0 XS_WATCH
    [bytesOfString node ++ [0], bytesOfString (hexStr w) ++ [0]]).2.1
  rw [hR] at hfw
  simp only [] at hfw
  cases hxe : xs_error R.1 with
  | none => rw [hxe] at h; simp at h
  | some e =>
    rw [hxe] at h
    simp only [] at h
    injection h with ha hb
    injection ha with ha
    subst ha
    subst hb
    constructor
    · intro hc
      rw [if_pos hc]
      simp only [hfw]
      simp [List.erase_cons_head, hw]
    · intro hor
      have hcn : ¬(e ≠ 0 ∧ e ≠ -EEXIST) := by
        rcases hor with hor | hor <;> simp [hor]
      rw [if_neg hcn]
      simp [hfw]

/-- Witness for C6: a transport failure (code -5) rolls the insertion back,
leaving watch 7 unregistered; an acknowledged subscribe leaves it
registered. -/
theorem register_watch_rollback_witness :
    register_xenbus_watch [some (-5)] baseS 7 "/n" = (some (-5), baseS) ∧
    7 ∉ baseS.watches ∧
    register_xenbus_watch [] regS 7 "/n" =
      (some 0, { baseS with watches := [7] }) ∧
    7 ∈ (register_xenbus_watch [] regS 7 "/n").2.watches := by
  refine ⟨by decide, ?_, by decide, ?_⟩
  · exact (register_watch_rollback [some (-5)] baseS 7 "/n" (-5) baseS
      (by decide) (by decide)).1 (by decide)
  · exact (register_watch_rollback [] regS 7 "/n" 0
      (register_xenbus_watch [] regS 7 "/n").2 (by decide) (by decide)).2
      (Or.inl rfl)

/-- C10: `xenbus_exists` never propagates an error code — whenever the
underlying directory call fails (for any reason, including a failed path
allocation) it returns 0, whenever the directory call succeeds (even on an
empty listing) it returns 1, and every returned value is 0 or 1. -/
theorem xenbus_exists_binary (aj asp : Bool) (werr : List (Option Int))
    (s : XsState) (tx : Nat) (dir node : String) :
    (∀ e s1, xenbus_directory aj asp werr s tx dir node = (.err e, s1) →
      xenbus_exists aj asp werr s tx dir node = (some 0, s1)) ∧
    (∀ d s1, xenbus_directory aj asp werr s tx dir node = (.ok d, s1) →
      xenbus_exists aj asp werr s tx dir node = (some 1, s1)) ∧
    (∀ r s1, xenbus_exists aj asp werr s tx dir node = (some r, s1) →
      r = 0 ∨ r = 1) := by
  refine ⟨fun e s1 h => ?_, fun d s1 h => ?_, fun r s1 h => ?_⟩
  · simp [xenbus_exists, h]
  · simp [xenbus_exists, h]
  · simp only [xenbus_exists] at h
    split at h <;> simp_all

/-- Witness for C10: a failed path allocation yields 0; a successful
directory call with an empty listing yields 1. -/
theorem xenbus_exists_binary_witness :
    xenbus_exists false true [] baseS 0 "/a" "b" = (some 0, baseS) ∧
    xenbus_exists true true [] dirS 0 "/a" "b" = (some 1, baseS) := by
  constructor
  · exact (xenbus_exists_binary false true [] baseS 0 "/a" "b").1 (-12) baseS
      (by decide)
  · refine (xenbus_exists_binary true true [] dirS 0 "/a" "b").2.1 [] baseS ?_
    have h0 : join true "/a" "b" = .ok "/a/b" := rfl
    have h1 : xs_single [] dirS 0 XS_DIRECTORY "/a/b" = (.ok [], baseS) := by
      decide
    simp [xenbus_directory, h0, h1, split]

/-- C5 counterexample: a two-key gather whose second read fails with
`-ENOENT` still leaves the first key's raw output written — the partial
gather is not discarded as a unit. -/
theorem xenbus_gather_counterexample :
    (xenbus_gather gatherS 0 "/d"
        [(⟨"a", none⟩, true, []), (⟨"b", none⟩, true, [])]).1 = .ret (-2) ∧
    (xenbus_gather gatherS 0 "/d"
        [(⟨"a", none⟩, true, []), (⟨"b", none⟩, true, [])]).2.2 =
      [some (.rawV [49]), none] ∧
    (GatherRet.ret (-2) ≠ .ret 0) ∧
    (some (Slot.rawV [49]) ≠ (none : Option Slot)) := by
  refine ⟨by decide, by decide, by decide, by decide⟩

/-- Looking up any position in a list of `none`s yields `none`. -/
theorem getD_map_none {α : Type} (l : List α) (i : Nat) :
    ((l.map (fun _ => (none : Option Slot))).getD i none) = none := by
  induction l generalizing i with
  | nil => simp [List.getD]
  | cons a l ih =>
    cases i with
    | zero => simp [List.getD]
    | succ j => exact ih j

/-- A failure found among the first `n` entries is an entry of the list. -/
theorem firstSomeUpTo_mem (n : Nat) (l : List (Option Int)) (e : Int)
    (h : firstSomeUpTo n l = some e) : some e ∈ l := by
  induction n generalizing l with
  | zero => simp [firstSomeUpTo] at h
  | succ n ih =>
    cases l with
    | nil => simp [firstSomeUpTo] at h
    | cons o rest =>
      cases ho : o with
      | some x =>
        rw [ho] at h
        simp [firstSomeUpTo] at h
        simp [h]
      | none =>
        rw [ho] at h
        simp only [firstSomeUpTo] at h
        exact List.mem_cons_of_mem _ (ih rest h)

/-- `getD` hitting `some` means the element is in the list. -/
theorem getD_some_mem (l : List (Option Int)) (n : Nat) (e : Int)
    (h : l.getD n none = some e) : some e ∈ l := by
  induction l generalizing n with
  | nil => simp [List.getD] at h
  | cons o rest ih =>
    cases n with
    | zero => simp [List.getD] at h; simp [h]
    | succ j =>
      simp only [List.getD] at h ih
      exact List.mem_cons_of_mem _ (ih j (by simpa using h))

/-- Every code produced by the error-table scan is positive. -/
theorem get_error_aux_pos (name : List Nat) (l : List (String × Int))
    (hl : ∀ p ∈ l, 0 < p.2) : 0 < (get_error_aux name l).1 := by
  induction l with
  | nil => simp [get_error_aux, EINVAL]
  | cons e rest ih =>
    cases rest with
    | nil =>
      simp only [get_error_aux]
      split
      · exact hl e (by simp)
      · simp [EINVAL]
    | cons e2 rest2 =>
      simp only [get_error_aux]
      split
      · exact hl e (by simp)
      · exact ih (fun p hp => hl p (by simp [List.mem_cons] at hp ⊢; tauto))

/-- `get_error` never returns code 0. -/
theorem get_error_pos (body : List Nat) : 0 < (get_error body).1 :=
  get_error_aux_pos _ _ (by decide)

/-- An `xs_talkv` failure code is never 0 when the write oracle never reports
a zero error code. -/
theorem xs_talkv_err_nonzero (werr : List (Option Int)) (s : XsState)
    (tx ty : Nat) (iov : List (List Nat)) (e : Int)
    (hnz : ∀ o ∈ werr, o ≠ some 0)
    (h : (xs_talkv werr s tx ty iov).1 = .err e) : e ≠ 0 := by
  simp only [xs_talkv, read_reply] at h
  cases hw : werr.getD 0 none with
  | some e0 =>
    rw [hw] at h
    simp at h
    subst h
    exact fun h0 => hnz (some e0) (getD_some_mem werr 0 e0 hw) (by simp [h0])
  | none =>
    rw [hw] at h
    cases hp : firstPartErr werr iov.length with
    | some e0 =>
      rw [hp] at h
      simp at h
      subst h
      have hmem : some e0 ∈ werr.drop 1 := firstSomeUpTo_mem _ _ _ hp
      exact fun h0 =>
        hnz (some e0) (List.mem_of_mem_drop hmem) (by simp [h0])
    | none =>
      rw [hp] at h
      cases hr : s.replyList with
      | nil => rw [hr] at h; simp at h
      | cons m rest =>
        rw [hr] at h
        by_cases he : m.hdr.ty = XS_ERROR
        · simp [he] at h
          have := get_error_pos m.body
          intro h0
          rw [h0] at h
          omega
        · simp [he] at h

/-- An `xenbus_read` failure code is never 0 when its write oracle never
reports a zero error code. -/
theorem xenbus_read_err_nonzero (aj : Bool) (werr : List (Option Int))
    (s : XsState) (tx : Nat) (dir node : String) (e : Int)
    (hnz : ∀ o ∈ werr, o ≠ some 0)
    (h : (xenbus_read aj werr s tx dir node).1 = .err e) : e ≠ 0 := by
  simp only [xenbus_read] at h
  cases hj : join aj dir node with
  | error e0 =>
    rw [hj] at h
    have he : e0 = e := by injection h
    have h12 : e0 = -ENOMEM := by
      simp only [join] at hj
      split at hj
      · injection hj with h2; exact h2.symm
      · split at hj <;> simp at hj
    subst he
    rw [h12]
    decide
  | ok path =>
    rw [hj] at h
    exact xs_talkv_err_nonzero _ _ _ _ _ _ hnz h

/-- C5 (amended): gather reads the keys in order and stops at the first
failing read or parse; the outputs of the keys read before the failure keep
the values written into them (the partial gather is not rolled back), while
the failing key's output and all later outputs are never written. -/
theorem xenbus_gather_prefix_outputs (s : XsState) (tx : Nat) (dir : String)
    (items : List (GatherItem × Bool × List (Option Int)))
    (hnz : ∀ t ∈ items, ∀ o ∈ t.2.2, o ≠ some 0) :
    (xenbus_gather s tx dir items).2.2.length = items.length ∧
    ∃ k, k ≤ items.length ∧
      (∀ i, i < k → ((xenbus_gather s tx dir items).2.2.getD i none).isSome) ∧
      (∀ i, k ≤ i → i < items.length →
        (xenbus_gather s tx dir items).2.2.getD i none = none) ∧
      ((xenbus_gather s tx dir items).1 = .ret 0 → k = items.length) ∧
      (∀ e, (xenbus_gather s tx dir items).1 = .ret e → e ≠ 0 →
        k < items.length) := by
  induction items generalizing s with
  | nil =>
    refine ⟨rfl, 0, Nat.le_refl 0, by simp, by simp, fun _ => rfl, ?_⟩
    intro e he h0
    simp only [xenbus_gather] at he
    injection he with he
    exact absurd he.symm h0
  | cons t rest ih =>
    obtain ⟨it, aj, werr⟩ := t
    have hnzh : ∀ o ∈ werr, o ≠ some 0 :=
      fun o ho => hnz (it, aj, werr) (by simp) o ho
    have hnzr : ∀ t ∈ rest, ∀ o ∈ t.2.2, o ≠ some 0 :=
      fun t ht o ho => hnz t (by simp [ht]) o ho
    rcases hr : xenbus_read aj werr s tx dir it.name with ⟨r, s1⟩
    cases r with
    | blocked =>
      refine ⟨by simp [xenbus_gather, hr], 0, Nat.zero_le _, by simp, ?_,
        ?_, ?_⟩
      · intro i _ _
        simp only [xenbus_gather, hr]
        cases i with
        | zero => simp [List.getD]
        | succ j => exact getD_map_none rest j
      · intro h0
        simp [xenbus_gather, hr] at h0
      · intro e he _
        simp [xenbus_gather, hr] at he
    | err e0 =>
      have he0 : e0 ≠ 0 := xenbus_read_err_nonzero aj werr s tx dir it.name e0
        hnzh (by rw [hr])
      refine ⟨by simp [xenbus_gather, hr], 0, Nat.zero_le _, by simp, ?_,
        ?_, ?_⟩
      · intro i _ _
        simp only [xenbus_gather, hr]
        cases i with
        | zero => simp [List.getD]
        | succ j => exact getD_map_none rest j
      · intro h0
        simp only [xenbus_gather, hr] at h0
        injection h0 with h0
        exact absurd h0 he0
      · intro e he _
        simp [xenbus_gather, hr]
    | ok p =>
      cases hf : it.fmt with
      | none =>
        have hrec := ih s1 hnzr
        obtain ⟨hlen, k, hk, hsome, hnone, hret, hlt⟩ := hrec
        refine ⟨by simp [xenbus_gather, hr, hf, hlen], k + 1,
          by simp only [List.length_cons]; omega, ?_, ?_, ?_, ?_⟩
        · intro i hi
          simp only [xenbus_gather, hr, hf]
          cases i with
          | zero => simp [List.getD]
          | succ j => simpa [List.getD] using hsome j (by omega)
        · intro i hki hin
          simp only [xenbus_gather, hr, hf]
          cases i with
          | zero => omega
          | succ j =>
            simpa [List.getD] using hnone j (by omega) (by simp at hin; omega)
        · intro h0
          simp only [xenbus_gather, hr, hf] at h0
          have := hret h0
          simp [this]
        · intro e he _
          simp only [List.length_cons]
          have := hlt e (by simpa [xenbus_gather, hr, hf] using he)
          omega
      | some parse =>
        cases hp : parse p with
        | none =>
          refine ⟨by simp [xenbus_gather, hr, hf, hp], 0, Nat.zero_le _,
            by simp, ?_, ?_, ?_⟩
          · intro i _ _
            simp only [xenbus_gather, hr, hf, hp]
            cases i with
            | zero => simp [List.getD]
            | succ j => exact getD_map_none rest j
          · intro h0
            simp only [xenbus_gather, hr, hf, hp] at h0
            injection h0 with h0
            simp [EINVAL] at h0
          · intro e he _
            simp [xenbus_gather, hr, hf, hp]
        | some v =>
          have hrec := ih s1 hnzr
          obtain ⟨hlen, k, hk, hsome, hnone, hret, hlt⟩ := hrec
          refine ⟨by simp [xenbus_gather, hr, hf, hp, hlen], k + 1,
            by simp only [List.length_cons]; omega, ?_, ?_, ?_, ?_⟩
          · intro i hi
            simp only [xenbus_gather, hr, hf, hp]
            cases i with
            | zero => simp [List.getD]
            | succ j => simpa [List.getD] using hsome j (by omega)
          · intro i hki hin
            simp only [xenbus_gather, hr, hf, hp]
            cases i with
            | zero => omega
            | succ j =>
              simpa [List.getD] using hnone j (by omega) (by simp at hin; omega)
          · intro h0
            simp only [xenbus_gather, hr, hf, hp] at h0
            have := hret h0
            simp [this]
          · intro e he _
            simp only [List.length_cons]
            have := hlt e (by simpa [xenbus_gather, hr, hf, hp] using he)
            omega

/-- Witness for C5 (amended) at the two-key input whose second read fails:
the outputs list has length 2, the first slot is written, the second is
not. -/
theorem xenbus_gather_prefix_outputs_witness :
    (xenbus_gather gatherS 0 "/d"
        [(⟨"a", none⟩, true, []), (⟨"b", none⟩, true, [])]).2.2.length = 2 ∧
    ∃ k, k ≤ 2 ∧
      (∀ i, i < k → ((xenbus_gather gatherS 0 "/d"
        [(⟨"a", none⟩, true, []),
         (⟨"b", none⟩, true, [])]).2.2.getD i none).isSome) ∧
      (∀ i, k ≤ i → i < 2 → (xenbus_gather gatherS 0 "/d"
        [(⟨"a", none⟩, true, []),
         (⟨"b", none⟩, true, [])]).2.2.getD i none = none) ∧
      ((xenbus_gather gatherS 0 "/d"
        [(⟨"a", none⟩, true, []), (⟨"b", none⟩, true, [])]).1 = .ret 0 →
        k = 2) ∧
      (∀ e, (xenbus_gather gatherS 0 "/d"
        [(⟨"a", none⟩, true, []), (⟨"b", none⟩, true, [])]).1 = .ret e →
        e ≠ 0 → k < 2) := by
  have h := xenbus_gather_prefix_outputs gatherS 0 "/d"
    [(⟨"a", none⟩, true, []), (⟨"b", none⟩, true, [])]
    (by
      intro t ht o ho
      cases ht with
      | head => simp at ho
      | tail _ ht2 =>
        cases ht2 with
        | head => simp at ho
        | tail _ ht3 => cases ht3)
  simpa using h

/-- C7 counterexample: the claim as stated is false — when the Watcher has
already dequeued an event for watch 5, a full `unregister(5)` (registry
removal then queue purge) can complete, and the callback for watch 5 still
runs afterwards. -/
theorem unregister_race_counterexample : ¬ unreg_race_safe := fun h =>
  absurd (h raceMid 5 [.wCallback]) (by decide)

/-- One step preserves `wSafe` and adds no callback for `w`. -/
theorem step_wSafe (w : Nat) (s : ConcState) (a : Action) (h : wSafe w s) :
    wSafe w (step s a) ∧ (step s a).cbLog.count w = s.cbLog.count w := by
  obtain ⟨hq, hw, hs⟩ := h
  cases a with
  | wDequeue =>
    cases hsl : s.slot with
    | some m => simp only [step, hsl]; exact ⟨⟨hq, hw, hs⟩, by trivial⟩
    | none =>
      cases hev : s.watchEvents with
      | nil => simp only [step, hsl, hev]; exact ⟨⟨hq, hw, hs⟩, by trivial⟩
      | cons m rest =>
        simp only [step, hsl, hev]
        refine ⟨⟨?_, hw, ?_⟩, by trivial⟩
        · intro m' hm'
          exact hq m' (by rw [hev]; exact List.mem_cons_of_mem _ hm')
        · intro m' hm'
          have hmm : m = m' := by injection hm'
          subst hmm
          exact hq m (by rw [hev]; exact List.mem_cons_self m rest)
  | wCallback =>
    cases hsl : s.slot with
    | none => simp only [step, hsl]; exact ⟨⟨hq, hw, hs⟩, by trivial⟩
    | some m =>
      simp only [step, hsl]
      refine ⟨⟨hq, hw, fun m' hm' => nomatch hm'⟩, ?_⟩
      have hne : m.handle ≠ w := hs m hsl
      simp [List.count_append, List.count_cons, Ne.symm hne]
  | uRemove w' =>
    simp only [step]
    exact ⟨⟨hq, fun hmem => hw (List.erase_subset _ _ hmem), hs⟩, by trivial⟩
  | uPurge w' =>
    simp only [step]
    refine ⟨⟨?_, hw, hs⟩, by trivial⟩
    intro m hm
    exact hq m (List.mem_filter.mp hm).1
  | dEnqueue m =>
    simp only [step]
    by_cases hmem : m.handle ∈ s.watches
    · rw [if_pos hmem]
      refine ⟨⟨?_, hw, hs⟩, by trivial⟩
      intro m' hm'
      rcases List.mem_append.mp hm' with hm' | hm'
      · exact hq m' hm'
      · have hmm : m' = m := by simpa using hm'
        subst hmm
        intro hcontra
        rw [hcontra] at hmem
        exact hw hmem
    · rw [if_neg hmem]
      exact ⟨⟨hq, hw, hs⟩, by trivial⟩

/-- A whole trace preserves `wSafe` and adds no callback for `w`. -/
theorem runSteps_wSafe (w : Nat) (acts : List Action) (s : ConcState)
    (h : wSafe w s) :
    wSafe w (runSteps s acts) ∧
    (runSteps s acts).cbLog.count w = s.cbLog.count w := by
  induction acts generalizing s with
  | nil => exact ⟨h, rfl⟩
  | cons a acts ih =>
    have h1 := step_wSafe w s a h
    have h2 := ih (step s a) h1.1
    exact ⟨h2.1, h2.2.trans h1.2⟩

/-- C7 (amended): unregister removes the watch from the registry and purges
every event for it still in the pending queue, so — provided the Watcher is
not already holding a dequeued event for this watch — no callback for it runs
after unregister returns, whatever steps follow in any interleaving; an event
already dequeued by the Watcher may still invoke the callback once. -/
theorem unregister_no_callbacks_after (s : ConcState) (w : Nat)
    (acts : List Action)
    (hcnt : s.watches.count w ≤ 1)
    (hslot : ∀ m, s.slot = some m → m.handle ≠ w) :
    (∀ m ∈ (unregSteps s w).watchEvents, m.handle ≠ w) ∧
    w ∉ (unregSteps s w).watches ∧
    (runSteps (unregSteps s w) acts).cbLog.count w =
      (unregSteps s w).cbLog.count w := by
  have hq : ∀ m ∈ (unregSteps s w).watchEvents, m.handle ≠ w := by
    intro m hm
    simp only [unregSteps, step] at hm
    exact of_decide_eq_true (List.mem_filter.mp hm).2
  have hwreg : w ∉ (unregSteps s w).watches := by
    simp only [unregSteps, step]
    have hce := List.count_erase_self w s.watches
    have h0 : (s.watches.erase w).count w = 0 := by omega
    exact List.count_eq_zero.mp h0
  have hsl : ∀ m, (unregSteps s w).slot = some m → m.handle ≠ w := by
    intro m hm
    simp only [unregSteps, step] at hm
    exact hslot m hm
  exact ⟨hq, hwreg,
    (runSteps_wSafe w acts (unregSteps s w) ⟨hq, hwreg, hsl⟩).2⟩

/-- Witness for C7 (amended): from the queued-event state, unregister purges
the event and the subsequent Watcher steps invoke no callback for watch 5. -/
theorem unregister_no_callbacks_after_witness :
    (∀ m ∈ (unregSteps raceInit 5).watchEvents, m.handle ≠ 5) ∧
    5 ∉ (unregSteps raceInit 5).watches ∧
    (runSteps (unregSteps raceInit 5) [.wDequeue, .wCallback]).cbLog.count 5 =
      (unregSteps raceInit 5).cbLog.count 5 :=
  unregister_no_callbacks_after raceInit 5 [.wDequeue, .wCallback] (by decide)
    (fun m hm => nomatch hm)

end Xenbus
